import Mathlib

/-!
Verification of the payload-validation core of `ghga-event-schemas`.

The development shallowly embeds the two components of the repository:

* `validation.py`: `get_validated_payload`, `EventSchemaValidationError`,
  `SchemaErrorInfo` and `validated_upload_date`;
* `pydantic_.py`: the event-schema declarations and the `schema_registry`
  mapping event-type names to schemas.

Schemas are pydantic `BaseModel` subclasses; we embed the pydantic
behaviour the repository relies on: per-field presence checks, lax type
coercion, error records with a `loc` path / `type` tag / `msg` text,
custom field validators, and the `extra` model configuration
(`ignore` drops undeclared keys, `allow` keeps them).  The nested record
types used by the repository (`MetadataDatasetFile`,
`MetadataSubmissionFiles`) contain only plain string, integer and
optional-string fields, which is reflected in the `LeafType` descriptor
for nested models.
-/

/-- JSON-like values: the shape of event payload entries (`Mapping[str, Any]`
decoded from a wire message). -/
inductive Value where
  | null
  | str (s : String)
  | int (n : Int)
  | bool (b : Bool)
  | list (vs : List Value)
  | obj (kvs : List (String × Value))

/-- An event payload: a string-keyed mapping (Python `JsonObject`). -/
abbrev Payload := List (String × Value)

/-- Numeric value of a list of decimal digit characters. -/
def digitsToNat (cs : List Char) : Nat :=
  cs.foldl (fun n c => n * 10 + (c.toNat - 48)) 0

/-- Consume exactly `n` decimal digits from the front of a character list. -/
def takeDigits : Nat → List Char → Option (List Char × List Char)
  | 0, cs => some ([], cs)
  | _ + 1, [] => none
  | n + 1, c :: cs =>
    if c.isDigit then (takeDigits n cs).map (fun p => (c :: p.1, p.2)) else none

/-- Gregorian leap-year test, as in Python's `calendar`/`datetime`. -/
def isLeapYear (y : Nat) : Bool :=
  y % 4 == 0 && (y % 100 != 0 || y % 400 == 0)

/-- Number of days in a month of a given year. -/
def daysInMonth (y m : Nat) : Nat :=
  if m == 2 then (if isLeapYear y then 29 else 28)
  else if m == 4 || m == 6 || m == 9 || m == 11 then 30
  else 31

/-- Parse a `YYYY-MM-DD` date from the front of a character list, checking
month and day ranges; returns the unconsumed remainder. -/
def parseIsoDate (cs : List Char) : Option (List Char) :=
  match takeDigits 4 cs with
  | none => none
  | some (yds, r1) =>
    match r1 with
    | '-' :: r2 =>
      match takeDigits 2 r2 with
      | none => none
      | some (mds, r3) =>
        match r3 with
        | '-' :: r4 =>
          match takeDigits 2 r4 with
          | none => none
          | some (dds, r5) =>
            let y := digitsToNat yds
            let m := digitsToNat mds
            let d := digitsToNat dds
            if 1 ≤ m && m ≤ 12 && 1 ≤ d && d ≤ daysInMonth y m then some r5
            else none
        | _ => none
    | _ => none

/-- Parse an optional UTC offset (`Z`, `z` or `±HH:MM[:SS]`) that must run to
the end of the input; returns whether an offset was present. -/
def parseIsoOffset : List Char → Option Bool
  | [] => some false
  | ['Z'] => some true
  | ['z'] => some true
  | c :: rest =>
    if c = '+' || c = '-' then
      match takeDigits 2 rest with
      | none => none
      | some (hds, r1) =>
        match r1 with
        | ':' :: r2 =>
          match takeDigits 2 r2 with
          | none => none
          | some (mds, r3) =>
            if digitsToNat hds ≤ 23 && digitsToNat mds ≤ 59 then
              match r3 with
              | [] => some true
              | ':' :: r4 =>
                match takeDigits 2 r4 with
                | some (sds, []) =>
                  if digitsToNat sds ≤ 59 then some true else none
                | _ => none
              | _ => none
            else none
        | _ => none
    else none

/-- Parse a time of day `HH[:MM[:SS[.ffff]]]` followed by an optional UTC
offset; returns whether an offset was present. -/
def parseIsoTime (cs : List Char) : Option Bool :=
  match takeDigits 2 cs with
  | none => none
  | some (hds, r1) =>
    if digitsToNat hds ≥ 24 then none else
    match r1 with
    | ':' :: r2 =>
      match takeDigits 2 r2 with
      | none => none
      | some (mds, r3) =>
        if digitsToNat mds ≥ 60 then none else
        match r3 with
        | ':' :: r4 =>
          match takeDigits 2 r4 with
          | none => none
          | some (sds, r5) =>
            if digitsToNat sds ≥ 60 then none else
            match r5 with
            | '.' :: r6 =>
              if (r6.takeWhile Char.isDigit).isEmpty then none
              else parseIsoOffset (r6.dropWhile Char.isDigit)
            | _ => parseIsoOffset r5
        | _ => parseIsoOffset r3
    | _ => parseIsoOffset r1

/-- Modelled from the Python standard library (external to this repository):
the success behaviour of `datetime.datetime.fromisoformat`, which the code of
`validated_upload_date` calls.  `some tz` means the string parses as an
ISO-8601 date or date-time, with `tz = true` when a UTC offset is present;
`none` means `fromisoformat` raises `ValueError`. -/
def isoParse (s : String) : Option Bool :=
  match parseIsoDate s.toList with
  | none => none
  | some [] => some false
  | some (c :: rest) =>
    if c = 'T' || c = 't' || c = ' ' then parseIsoTime rest else none

/-- Translation of `validated_upload_date` (validation.py, lines 76-84):
return the string unchanged when `datetime.fromisoformat` accepts it,
otherwise raise `ValueError` with a message naming the offending string. -/
def validated_upload_date (upload_date : String) : Except String String :=
  match isoParse upload_date with
  | some _ => Except.ok upload_date
  | none =>
    Except.error ("Could not convert upload date to datetime: " ++ upload_date)

/-- Modelled from the `email-validator` package (external to this repository):
a simple well-formedness check standing in for pydantic's `EmailStr`
validation (one `@`, non-empty local part, dotted domain). -/
def emailValid (s : String) : Bool :=
  let cs := s.toList
  let locpart := cs.takeWhile (fun c => c ≠ '@')
  match cs.dropWhile (fun c => c ≠ '@') with
  | [] => false
  | _ :: domain =>
    !locpart.isEmpty && !domain.isEmpty && !(domain.contains '@') &&
      domain.contains '.' && domain.head? != some '.' &&
      domain.getLast? != some '.'

/-- Modelled from pydantic's lax string-to-integer coercion (external to this
repository): an optionally signed run of decimal digits. -/
def parseIntString (s : String) : Option Int :=
  match s.toList with
  | [] => none
  | '-' :: ds =>
    if !ds.isEmpty && ds.all Char.isDigit then some (-(digitsToNat ds : Int))
    else none
  | '+' :: ds =>
    if !ds.isEmpty && ds.all Char.isDigit then some ((digitsToNat ds : Int))
    else none
  | ds =>
    if ds.all Char.isDigit then some ((digitsToNat ds : Int)) else none

/-- One entry of `pydantic.ValidationError.errors(include_context=False,
include_url=False, include_input=False)` as consumed by
`get_validated_payload`: the location path (`loc`, each component rendered
with `str` as in the code), the error `type` tag, and the message. -/
structure VError where
  loc : List String
  etype : String
  msg : String
deriving DecidableEq

/-- Model of pydantic's `extra` configuration setting as used by the repository:
`ignore` (the default, undeclared keys are dropped) or `allow`
(undeclared keys are kept on the validated instance). -/
inductive Extra where
  | ignore
  | allow
deriving DecidableEq

/-- Field shapes occurring in the repository's nested record models
(`MetadataDatasetFile`: str, str | None, str; `MetadataSubmissionFiles`:
str, str, int, str). -/
inductive LeafType where
  | string
  | integer
  | optionalString
deriving DecidableEq

/-- Declared type of a schema field, covering the annotations used in
`pydantic_.py`: `str`, `int`, `EmailStr`, the `upload_date` string with its
datetime validator, `UTCDatetime`, `dict[str, Any]`, `StrEnum` subsets,
`T | None`, `list[T]` and nested record models. -/
inductive FieldType where
  | string
  | integer
  | email
  | uploadDate
  | utcDatetime
  | jsonObject
  | strEnum (lits : List String)
  | optionalOf (t : FieldType)
  | listOf (t : FieldType)
  | nested (fields : List (String × LeafType)) (ex : Extra)
deriving DecidableEq

/-- One declared field of a pydantic model: its name, annotation, and
default value (`none` encodes pydantic's required marker `...`). -/
structure FieldSpec where
  name : String
  ftype : FieldType
  dflt : Option Value

/-- A pydantic model class as seen by `get_validated_payload`: its
`model_fields` in declaration order (inherited fields first, as in
pydantic) and its `model_config` extra setting. -/
structure Schema where
  fields : List FieldSpec
  ex : Extra

/-- Names of a schema's declared fields (`schema.model_fields` keys). -/
def fieldNames (S : Schema) : List String :=
  S.fields.map (fun f => f.name)

/-- Coerce a payload value to a nested-record field shape, mirroring
pydantic lax mode: strings only accept strings, integers accept integers
and integer-shaped strings, optional fields accept `None`. -/
def coerceLeaf : LeafType → Value → Except VError Value
  | LeafType.string, Value.str s => Except.ok (Value.str s)
  | LeafType.string, _ =>
    Except.error ⟨[], "string_type", "Input should be a valid string"⟩
  | LeafType.integer, Value.int n => Except.ok (Value.int n)
  | LeafType.integer, Value.str s =>
    match parseIntString s with
    | some n => Except.ok (Value.int n)
    | none =>
      Except.error ⟨[], "int_parsing",
        "Input should be a valid integer, unable to parse string as an integer"⟩
  | LeafType.integer, _ =>
    Except.error ⟨[], "int_type", "Input should be a valid integer"⟩
  | LeafType.optionalString, Value.null => Except.ok Value.null
  | LeafType.optionalString, Value.str s => Except.ok (Value.str s)
  | LeafType.optionalString, _ =>
    Except.error ⟨[], "string_type", "Input should be a valid string"⟩

/-- Validate the fields of a nested record model against an object's
key-value pairs: every nested field is required; errors carry the nested
field name at the head of their `loc`. -/
def coerceNestedFields : List (String × LeafType) → List (String × Value) →
    List VError × List (String × Value)
  | [], _ => ([], [])
  | (n, lt) :: fs, kvs =>
    let rest := coerceNestedFields fs kvs
    match List.lookup n kvs with
    | some v =>
      match coerceLeaf lt v with
      | Except.ok v2 => (rest.1, (n, v2) :: rest.2)
      | Except.error e => (⟨n :: e.loc, e.etype, e.msg⟩ :: rest.1, rest.2)
    | none => (⟨[n], "missing", "Field required"⟩ :: rest.1, rest.2)

/-- Index the error lists of per-element validation results of a list field,
prepending each element's position to the `loc` of its errors, as pydantic
does for `list[T]` fields. -/
def indexedErrors : Nat → List (Except (List VError) Value) → List VError
  | _, [] => []
  | i, Except.ok _ :: rs => indexedErrors (i + 1) rs
  | i, Except.error es :: rs =>
    es.map (fun e => ⟨toString i :: e.loc, e.etype, e.msg⟩) ++
      indexedErrors (i + 1) rs

/-- Successfully coerced values of per-element validation results. -/
def okValues : List (Except (List VError) Value) → List Value
  | [] => []
  | Except.ok v :: rs => v :: okValues rs
  | Except.error _ :: rs => okValues rs

/-- Coerce and validate one payload value against a declared field type,
mirroring pydantic lax-mode validation: strings accept only strings,
integers accept integers and integer-shaped strings, `T | None` accepts
`None`, lists validate every element (indexing error locations), nested
models validate every nested field, and the `upload_date` field runs the
repository's `validated_upload_date` validator, whose `ValueError`
pydantic wraps as a `value_error` with a `Value error, ` message. -/
def coerceType : FieldType → Value → Except (List VError) Value
  | FieldType.string, Value.str s => Except.ok (Value.str s)
  | FieldType.string, _ =>
    Except.error [⟨[], "string_type", "Input should be a valid string"⟩]
  | FieldType.integer, Value.int n => Except.ok (Value.int n)
  | FieldType.integer, Value.str s =>
    match parseIntString s with
    | some n => Except.ok (Value.int n)
    | none =>
      Except.error [⟨[], "int_parsing",
        "Input should be a valid integer, unable to parse string as an integer"⟩]
  | FieldType.integer, _ =>
    Except.error [⟨[], "int_type", "Input should be a valid integer"⟩]
  | FieldType.email, Value.str s =>
    if emailValid s then Except.ok (Value.str s)
    else Except.error [⟨[], "value_error", "value is not a valid email address"⟩]
  | FieldType.email, _ =>
    Except.error [⟨[], "string_type", "Input should be a valid string"⟩]
  | FieldType.uploadDate, Value.str s =>
    match validated_upload_date s with
    | Except.ok s2 => Except.ok (Value.str s2)
    | Except.error m => Except.error [⟨[], "value_error", "Value error, " ++ m⟩]
  | FieldType.uploadDate, _ =>
    Except.error [⟨[], "string_type", "Input should be a valid string"⟩]
  | FieldType.utcDatetime, Value.str s =>
    if isoParse s == some true then Except.ok (Value.str s)
    else Except.error [⟨[], "datetime_parsing", "Input should be a valid datetime"⟩]
  | FieldType.utcDatetime, _ =>
    Except.error [⟨[], "datetime_type", "Input should be a valid datetime"⟩]
  | FieldType.jsonObject, Value.obj kvs => Except.ok (Value.obj kvs)
  | FieldType.jsonObject, _ =>
    Except.error [⟨[], "dict_type", "Input should be a valid dictionary"⟩]
  | FieldType.strEnum lits, Value.str s =>
    if lits.contains s then Except.ok (Value.str s)
    else Except.error [⟨[], "enum", "Input should be one of the permitted values"⟩]
  | FieldType.strEnum _, _ =>
    Except.error [⟨[], "enum", "Input should be one of the permitted values"⟩]
  | FieldType.optionalOf _, Value.null => Except.ok Value.null
  | FieldType.optionalOf t, v => coerceType t v
  | FieldType.listOf t, Value.list vs =>
    let rs := vs.map (fun v => coerceType t v)
    let errs := indexedErrors 0 rs
    if errs.isEmpty then Except.ok (Value.list (okValues rs))
    else Except.error errs
  | FieldType.listOf _, _ =>
    Except.error [⟨[], "list_type", "Input should be a valid list"⟩]
  | FieldType.nested fields ex, Value.obj kvs =>
    let r := coerceNestedFields fields kvs
    if r.1.isEmpty then
      Except.ok (Value.obj (match ex with
        | Extra.ignore => r.2
        | Extra.allow =>
          r.2 ++ kvs.filter (fun kv => !(fields.map Prod.fst).contains kv.1)))
    else Except.error r.1
  | FieldType.nested _ _, _ =>
    Except.error [⟨[], "model_type",
      "Input should be a valid dictionary or instance of the nested model"⟩]

/-- True when a field type contains no nested record model (so validating it
can never produce a `missing`-type error). -/
def FieldType.noNested : FieldType → Bool
  | FieldType.optionalOf t => t.noNested
  | FieldType.listOf t => t.noNested
  | FieldType.nested _ _ => false
  | _ => true

/-- Per-field pass of pydantic model construction `schema(**payload)`:
walks `model_fields` in declaration order, collecting the validation errors
(each with the field name at the head of its `loc`) and the populated
fields of the would-be instance. -/
def processFields : List FieldSpec → Payload → List VError × List (String × Value)
  | [], _ => ([], [])
  | f :: fs, P =>
    let rest := processFields fs P
    match List.lookup f.name P with
    | some v =>
      match coerceType f.ftype v with
      | Except.ok v2 => (rest.1, (f.name, v2) :: rest.2)
      | Except.error es =>
        (es.map (fun e => ⟨f.name :: e.loc, e.etype, e.msg⟩) ++ rest.1, rest.2)
    | none =>
      match f.dflt with
      | some d => (rest.1, (f.name, d) :: rest.2)
      | none => (⟨[f.name], "missing", "Field required"⟩ :: rest.1, rest.2)

/-- Insert a key-value pair into an association list as a Python `dict`
assignment does: replace the value in place if the key exists, else append. -/
def upsert (k v : String) : List (String × String) → List (String × String)
  | [] => [(k, v)]
  | (k', v') :: rest =>
    if k' = k then (k, v) :: rest else (k', v') :: upsert k v rest

/-- The dict comprehension of validation.py lines 62-64:
`{str(e["loc"][0]): e["msg"] for e in errors if e["type"] != "missing"}`,
keeping one reason per first `loc` component, later entries overwriting. -/
def buildMistyped (es : List VError) : List (String × String) :=
  es.foldl (fun acc e => upsert (e.loc.headD "") e.msg acc) []

/-- Translation of the `SchemaErrorInfo` TypedDict (validation.py lines
28-33); `mistyped_fields` is the insertion-ordered dict. -/
structure SchemaErrorInfo where
  missing_fields : List String
  mistyped_fields : List (String × String)
  unexpected_fields : List String
deriving DecidableEq

/-- Escape one character as Python's `json.dumps` does for the characters
appearing in this repository's payloads and messages. -/
def escapeChar (c : Char) : String :=
  if c = '"' then "\\\"" else if c = '\\' then "\\\\"
  else if c = '\n' then "\\n" else if c = '\t' then "\\t"
  else if c = '\r' then "\\r" else String.singleton c

/-- A JSON string literal for `s`, in `json.dumps` style. -/
def jsonString (s : String) : String :=
  "\"" ++ String.join (s.toList.map escapeChar) ++ "\""

/-- Join rendered items with the default `json.dumps` item separator. -/
def joinComma : List String → String
  | [] => ""
  | [s] => s
  | s :: rest => s ++ ", " ++ joinComma rest

mutual

/-- Modelled from Python's `json.dumps` (external to this repository) on the
JSON-like values of payloads, with the default separators. -/
def dumpsValue : Value → String
  | Value.null => "null"
  | Value.str s => jsonString s
  | Value.int n => toString n
  | Value.bool b => if b then "true" else "false"
  | Value.list vs => "[" ++ joinComma (dumpsValueList vs) ++ "]"
  | Value.obj kvs => "\x7b" ++ joinComma (dumpsObjList kvs) ++ "\x7d"

/-- Rendered items of a JSON array. -/
def dumpsValueList : List Value → List String
  | [] => []
  | v :: vs => dumpsValue v :: dumpsValueList vs

/-- Rendered entries of a JSON object, in insertion order. -/
def dumpsObjList : List (String × Value) → List String
  | [] => []
  | kv :: kvs => (jsonString kv.1 ++ ": " ++ dumpsValue kv.2) :: dumpsObjList kvs

end

/-- The serialization `json.dumps(payload)` of a payload mapping. -/
def dumpsPayload (P : Payload) : String :=
  "\x7b" ++ joinComma (dumpsObjList P) ++ "\x7d"

/-- The serialization `json.dumps` of a list of strings. -/
def dumpsStrList (l : List String) : String :=
  "[" ++ joinComma (l.map jsonString) ++ "]"

/-- The serialization `json.dumps` of a string-to-string dict. -/
def dumpsStrDict (l : List (String × String)) : String :=
  "\x7b" ++ joinComma (l.map (fun p => jsonString p.1 ++ ": " ++ jsonString p.2)) ++
    "\x7d"

/-- The serialization `json.dumps(error_info)` of a `SchemaErrorInfo`, with
its three keys in declaration/insertion order. -/
def dumpsErrorInfo (i : SchemaErrorInfo) : String :=
  "\x7b\"missing_fields\": " ++ dumpsStrList i.missing_fields ++
    ", \"mistyped_fields\": " ++ dumpsStrDict i.mistyped_fields ++
    ", \"unexpected_fields\": " ++ dumpsStrList i.unexpected_fields ++ "\x7d"

/-- Translation of the `EventSchemaValidationError` exception (validation.py
lines 36-45): it carries the offending payload, the structured error info,
and the formatted message passed to `ValueError.__init__`. -/
structure EventSchemaValidationError where
  payload : Payload
  error_info : SchemaErrorInfo
  message : String

/-- Translation of `EventSchemaValidationError.__init__`: the message embeds
the error info and the complete payload, each serialized as JSON text. -/
def mkEventSchemaValidationError (payload : Payload)
    (error_info : SchemaErrorInfo) : EventSchemaValidationError :=
  ⟨payload, error_info,
    "The event payload failed validation against the corresponding" ++
      " event schema: " ++ dumpsErrorInfo error_info ++ "." ++
      " The complete payload is: " ++ dumpsPayload payload⟩

/-- Translation of `get_validated_payload` (validation.py lines 51-73):
construct the model instance from the payload; on a pydantic
`ValidationError`, split the error entries into `missing` (type
`"missing"`, keyed by `str(e["loc"][0])`) and `mistyped` (all others),
compute `unexpected` as the payload keys not in `schema.model_fields`, and
raise one `EventSchemaValidationError` aggregating all three. -/
def get_validated_payload (payload : Payload) (schema : Schema) :
    Except EventSchemaValidationError (List (String × Value)) :=
  let r := processFields schema.fields payload
  if r.1.isEmpty then
    Except.ok (match schema.ex with
      | Extra.ignore => r.2
      | Extra.allow =>
        r.2 ++ payload.filter (fun kv => !(fieldNames schema).contains kv.1))
  else
    let missing :=
      (r.1.filter (fun e => e.etype == "missing")).map (fun e => e.loc.headD "")
    let mistyped := buildMistyped (r.1.filter (fun e => e.etype != "missing"))
    let unexpected :=
      (payload.map Prod.fst).filter (fun k => !(fieldNames schema).contains k)
    Except.error
      (mkEventSchemaValidationError payload ⟨missing, mistyped, unexpected⟩)

/-- The example schema of the repository's test suite
(tests/test_validation.py): `some_param: str`, `another_param: int`. -/
def exampleSchema : Schema :=
  ⟨[⟨"some_param", FieldType.string, none⟩,
    ⟨"another_param", FieldType.integer, none⟩], Extra.ignore⟩

/-- Nested-record descriptor of `MetadataDatasetFile` (pydantic_.py lines
38-49), used for the elements of `MetadataDatasetOverview.files`. -/
def metadataDatasetFileFields : List (String × LeafType) :=
  [("accession", LeafType.string),
   ("description", LeafType.optionalString),
   ("file_extension", LeafType.string)]

/-- `MetadataDatasetFile` as a schema: all fields required, `extra="allow"`. -/
def metadataDatasetFile : Schema :=
  ⟨[⟨"accession", FieldType.string, none⟩,
    ⟨"description", FieldType.optionalOf FieldType.string, none⟩,
    ⟨"file_extension", FieldType.string, none⟩], Extra.allow⟩

/-- `MetadataDatasetID` (pydantic_.py lines 52-55). -/
def metadataDatasetID : Schema :=
  ⟨[⟨"accession", FieldType.string, none⟩], Extra.ignore⟩

/-- `MetadataDatasetOverview` (pydantic_.py lines 95-113), inheriting
`MetadataDatasetID`'s `accession`; `extra="allow"`. -/
def metadataDatasetOverview : Schema :=
  ⟨[⟨"accession", FieldType.string, none⟩,
    ⟨"title", FieldType.string, none⟩,
    ⟨"stage", FieldType.strEnum ["download", "upload"], none⟩,
    ⟨"description", FieldType.optionalOf FieldType.string, none⟩,
    ⟨"dac_alias", FieldType.string, none⟩,
    ⟨"dac_email", FieldType.email, none⟩,
    ⟨"files",
      FieldType.listOf (FieldType.nested metadataDatasetFileFields Extra.allow),
      none⟩],
   Extra.allow⟩

/-- Nested-record descriptor of `MetadataSubmissionFiles` (pydantic_.py
lines 135-155). -/
def metadataSubmissionFilesFields : List (String × LeafType) :=
  [("file_id", LeafType.string),
   ("file_name", LeafType.string),
   ("decrypted_size", LeafType.integer),
   ("decrypted_sha256", LeafType.string)]

/-- `MetadataSubmissionUpserted` (pydantic_.py lines 158-165). -/
def metadataSubmissionUpserted : Schema :=
  ⟨[⟨"associated_files",
      FieldType.listOf
        (FieldType.nested metadataSubmissionFilesFields Extra.ignore),
      none⟩],
   Extra.ignore⟩

/-- `SearchableResourceInfo` (pydantic_.py lines 58-65). -/
def searchableResourceInfo : Schema :=
  ⟨[⟨"accession", FieldType.string, none⟩,
    ⟨"class_name", FieldType.string, none⟩], Extra.ignore⟩

/-- `SearchableResource` (pydantic_.py lines 68-73), adding `content`. -/
def searchableResource : Schema :=
  ⟨searchableResourceInfo.fields ++
    [⟨"content", FieldType.jsonObject, none⟩], Extra.ignore⟩

/-- `FileUploadReceived` (pydantic_.py lines 168-201), inheriting
`UploadDateModel`'s validated `upload_date` field. -/
def fileUploadReceived : Schema :=
  ⟨[⟨"upload_date", FieldType.uploadDate, none⟩,
    ⟨"file_id", FieldType.string, none⟩,
    ⟨"object_id", FieldType.string, none⟩,
    ⟨"bucket_id", FieldType.string, none⟩,
    ⟨"s3_endpoint_alias", FieldType.string, none⟩,
    ⟨"submitter_public_key", FieldType.string, none⟩,
    ⟨"decrypted_size", FieldType.integer, none⟩,
    ⟨"expected_decrypted_sha256", FieldType.string, none⟩], Extra.ignore⟩

/-- `FileUploadValidationSuccess` (pydantic_.py lines 204-266). -/
def fileUploadValidationSuccess : Schema :=
  ⟨[⟨"upload_date", FieldType.uploadDate, none⟩,
    ⟨"file_id", FieldType.string, none⟩,
    ⟨"object_id", FieldType.string, none⟩,
    ⟨"bucket_id", FieldType.string, none⟩,
    ⟨"s3_endpoint_alias", FieldType.string, none⟩,
    ⟨"decrypted_size", FieldType.integer, none⟩,
    ⟨"decryption_secret_id", FieldType.string, none⟩,
    ⟨"content_offset", FieldType.integer, none⟩,
    ⟨"encrypted_part_size", FieldType.integer, none⟩,
    ⟨"encrypted_parts_md5", FieldType.listOf FieldType.string, none⟩,
    ⟨"encrypted_parts_sha256", FieldType.listOf FieldType.string, none⟩,
    ⟨"decrypted_sha256", FieldType.string, none⟩], Extra.ignore⟩

/-- `FileUploadValidationFailure` (pydantic_.py lines 269-291). -/
def fileUploadValidationFailure : Schema :=
  ⟨[⟨"upload_date", FieldType.uploadDate, none⟩,
    ⟨"file_id", FieldType.string, none⟩,
    ⟨"object_id", FieldType.string, none⟩,
    ⟨"bucket_id", FieldType.string, none⟩,
    ⟨"s3_endpoint_alias", FieldType.string, none⟩,
    ⟨"reason", FieldType.string, none⟩], Extra.ignore⟩

/-- `FileInternallyRegistered` (pydantic_.py lines 294-302), inheriting all
of `FileUploadValidationSuccess` and adding `encrypted_size`. -/
def fileInternallyRegistered : Schema :=
  ⟨fileUploadValidationSuccess.fields ++
    [⟨"encrypted_size", FieldType.integer, none⟩], Extra.ignore⟩

/-- `FileRegisteredForDownload` (pydantic_.py lines 305-322). -/
def fileRegisteredForDownload : Schema :=
  ⟨[⟨"upload_date", FieldType.uploadDate, none⟩,
    ⟨"file_id", FieldType.string, none⟩,
    ⟨"decrypted_sha256", FieldType.string, none⟩,
    ⟨"drs_uri", FieldType.string, none⟩], Extra.ignore⟩

/-- `NonStagedFileRequested` (pydantic_.py lines 325-350). -/
def nonStagedFileRequested : Schema :=
  ⟨[⟨"file_id", FieldType.string, none⟩,
    ⟨"target_object_id", FieldType.string, none⟩,
    ⟨"target_bucket_id", FieldType.string, none⟩,
    ⟨"s3_endpoint_alias", FieldType.string, none⟩,
    ⟨"decrypted_sha256", FieldType.string, none⟩], Extra.ignore⟩

/-- `FileStagedForDownload` (pydantic_.py lines 353-356): same fields as
`NonStagedFileRequested`. -/
def fileStagedForDownload : Schema :=
  ⟨nonStagedFileRequested.fields, Extra.ignore⟩

/-- `FileDownloadServed` (pydantic_.py lines 359-372), adding `context`. -/
def fileDownloadServed : Schema :=
  ⟨nonStagedFileRequested.fields ++
    [⟨"context", FieldType.string, none⟩], Extra.ignore⟩

/-- `Notification` (pydantic_.py lines 375-398); `email_cc` and `email_bcc`
default to the empty list. -/
def notification : Schema :=
  ⟨[⟨"recipient_email", FieldType.email, none⟩,
    ⟨"email_cc", FieldType.listOf FieldType.email, some (Value.list [])⟩,
    ⟨"email_bcc", FieldType.listOf FieldType.email, some (Value.list [])⟩,
    ⟨"subject", FieldType.string, none⟩,
    ⟨"recipient_name", FieldType.string, none⟩,
    ⟨"plaintext_body", FieldType.string, none⟩], Extra.ignore⟩

/-- `UserID` (pydantic_.py lines 422-425). -/
def userID : Schema :=
  ⟨[⟨"user_id", FieldType.string, none⟩], Extra.ignore⟩

/-- `AccessRequestDetails` (pydantic_.py lines 461-503), inheriting
`UserID`; several optional fields default to `None`. -/
def accessRequestDetails : Schema :=
  ⟨[⟨"user_id", FieldType.string, none⟩,
    ⟨"id", FieldType.string, none⟩,
    ⟨"dataset_id", FieldType.string, none⟩,
    ⟨"dataset_title", FieldType.string, none⟩,
    ⟨"dataset_description", FieldType.optionalOf FieldType.string,
      some Value.null⟩,
    ⟨"status", FieldType.strEnum ["allowed", "denied", "pending"], none⟩,
    ⟨"request_text", FieldType.string, none⟩,
    ⟨"dac_alias", FieldType.string, none⟩,
    ⟨"dac_email", FieldType.email, none⟩,
    ⟨"ticket_id", FieldType.optionalOf FieldType.string, some Value.null⟩,
    ⟨"internal_note", FieldType.optionalOf FieldType.string, some Value.null⟩,
    ⟨"note_to_requester", FieldType.optionalOf FieldType.string,
      some Value.null⟩,
    ⟨"access_starts", FieldType.utcDatetime, none⟩,
    ⟨"access_ends", FieldType.utcDatetime, none⟩], Extra.ignore⟩

/-- `UserIvaState` (pydantic_.py lines 525-536), inheriting `UserID`;
`value` and `type` are required but nullable. -/
def userIvaState : Schema :=
  ⟨[⟨"user_id", FieldType.string, none⟩,
    ⟨"value", FieldType.optionalOf FieldType.string, none⟩,
    ⟨"type",
      FieldType.optionalOf
        (FieldType.strEnum ["Phone", "Fax", "PostalAddress", "InPerson"]),
      none⟩,
    ⟨"state",
      FieldType.strEnum
        ["Unverified", "CodeRequested", "CodeCreated", "CodeTransmitted",
         "Verified"],
      none⟩], Extra.ignore⟩

/-- Translation of `schema_registry` (pydantic_.py lines 539-559): event
schemas (values) listed by event type (key), in source order. -/
def schema_registry : List (String × Schema) :=
  [("metadata_dataset_deleted", metadataDatasetID),
   ("metadata_dataset_overview", metadataDatasetOverview),
   ("metadata_submission_upserted", metadataSubmissionUpserted),
   ("file_upload_received", fileUploadReceived),
   ("file_upload_validation_success", fileUploadValidationSuccess),
   ("file_upload_validation_failure", fileUploadValidationFailure),
   ("file_internally_registered", fileInternallyRegistered),
   ("file_registered_for_download", fileRegisteredForDownload),
   ("non_staged_file_requested", nonStagedFileRequested),
   ("file_staged_for_download", fileStagedForDownload),
   ("file_download_served", fileDownloadServed),
   ("notification", notification),
   ("searchable_resource_deleted", searchableResourceInfo),
   ("searchable_resource_upserted", searchableResource),
   ("user_id", userID),
   ("second_factor_recreated", userID),
   ("access_request_details", accessRequestDetails),
   ("iva_state_changed", userIvaState)]

/-- Specification-level success condition for one declared field: a present
value must coerce, an absent field must have a default. -/
def fieldOk (P : Payload) (f : FieldSpec) : Bool :=
  match List.lookup f.name P with
  | some v =>
    match coerceType f.ftype v with
    | Except.ok _ => true
    | Except.error _ => false
  | none => f.dflt.isSome

/-- The aggregate three-category report computed by the failure branch of
`get_validated_payload` (validation.py lines 58-70). -/
def fullErrorInfo (P : Payload) (S : Schema) : SchemaErrorInfo :=
  let errs := (processFields S.fields P).1
  ⟨(errs.filter (fun e => e.etype == "missing")).map (fun e => e.loc.headD ""),
   buildMistyped (errs.filter (fun e => e.etype != "missing")),
   (P.map Prod.fst).filter (fun k => !(fieldNames S).contains k)⟩

/-- Specification-language definition (spec section 8), for comparison with
the code: the required (no-default) field names of `S` absent from `P`, in
declaration order. -/
def requiredAbsent (P : Payload) (S : Schema) : List String :=
  (S.fields.filter
      (fun f => f.dflt.isNone && (List.lookup f.name P).isNone)).map
    FieldSpec.name

/-- Payload of the C1 counterexample: a valid `MetadataDatasetFile` payload
plus one undeclared key. -/
def payloadC1 : Payload :=
  [("accession", Value.str "ACC1"), ("description", Value.null),
   ("file_extension", Value.str ".txt"), ("extra_field", Value.str "x")]

/-- Payload of the C9 theorem: a valid `MetadataDatasetOverview` payload
plus one undeclared key. -/
def payloadC9 : Payload :=
  [("accession", Value.str "DS1"), ("title", Value.str "Dataset"),
   ("stage", Value.str "download"), ("description", Value.null),
   ("dac_alias", Value.str "DAC"), ("dac_email", Value.str "dac@ghga.de"),
   ("files", Value.list []), ("extra_info", Value.str "x")]

/-- Payload of the C2 counterexample: `accession` (required) is omitted,
and the present `files` list contains an empty object whose nested required
fields are missing. -/
def payloadC2 : Payload :=
  [("title", Value.str "T"), ("stage", Value.str "download"),
   ("description", Value.null), ("dac_alias", Value.str "DAC"),
   ("dac_email", Value.str "dac@ghga.de"),
   ("files", Value.list [Value.obj []])]

/-- Payload of the C3 counterexample: all fields valid except that the
`files` list contains an empty object, so coercion of `files` fails with
nested `missing` errors only. -/
def payloadC3 : Payload :=
  [("accession", Value.str "A"), ("title", Value.str "T"),
   ("stage", Value.str "upload"), ("description", Value.null),
   ("dac_alias", Value.str "D"), ("dac_email", Value.str "d@g.de"),
   ("files", Value.list [Value.obj []])]

/-- Payload of the C5 witness: the test schema failing with one mistyped
field. -/
def payloadC5 : Payload :=
  [("some_param", Value.str "x"), ("another_param", Value.str "y")]

/-- Error-info record of the C5 witness. -/
def infoC5 : SchemaErrorInfo :=
  ⟨[], [("another_param",
    "Input should be a valid integer, unable to parse string as an integer")],
   []⟩

/-- Payload of the C6 scenario: a `FileUploadReceived` payload whose
`upload_date` is the unparseable string `"not-a-date"`. -/
def payloadC6 : Payload :=
  [("upload_date", Value.str "not-a-date"), ("file_id", Value.str "f1"),
   ("object_id", Value.str "o1"), ("bucket_id", Value.str "b1"),
   ("s3_endpoint_alias", Value.str "s1"),
   ("submitter_public_key", Value.str "k1"),
   ("decrypted_size", Value.int 100),
   ("expected_decrypted_sha256", Value.str "h1")]

/-- Payload of the C10 demonstration: two elements of the nested
`associated_files` list fail with different non-`missing` errors. -/
def payloadC10 : Payload :=
  [("associated_files", Value.list
    [Value.obj [("file_id", Value.int 5), ("file_name", Value.str "a"),
      ("decrypted_size", Value.int 1), ("decrypted_sha256", Value.str "h")],
     Value.obj [("file_id", Value.str "f"), ("file_name", Value.str "b"),
      ("decrypted_size", Value.str "xx"),
      ("decrypted_sha256", Value.str "h2")]])]

/-- Error-info record of the C10 demonstration: a single reason survives
for `associated_files` although two element errors occurred. -/
def infoC10 : SchemaErrorInfo :=
  ⟨[], [("associated_files",
    "Input should be a valid integer, unable to parse string as an integer")],
   []⟩

/-- Appending to a non-empty string cannot give the empty string. -/
theorem append_ne_empty (a m : String) (ha : 0 < a.length) : a ++ m ≠ "" := by
  intro h
  have hl := congrArg String.length h
  rw [String.length_append] at hl
  have h0 : ("" : String).length = 0 := rfl
  omega

/-- A lookup in a string-keyed association list succeeds exactly when the key
occurs among the keys. -/
theorem lookup_isSome_iff {β : Type} (k : String) (l : List (String × β)) :
    (List.lookup k l).isSome = true ↔ k ∈ l.map Prod.fst := by
  induction l with
  | nil => simp [List.lookup]
  | cons p l ih =>
    by_cases hk : k = p.1
    · simp [List.lookup, hk]
    · have : (k == p.1) = false := by simp [hk]
      simp [List.lookup, this, ih, hk]

/-- A successful lookup returns a pair of the list. -/
theorem lookup_mem {β : Type} {k : String} {v : β} :
    ∀ (l : List (String × β)), List.lookup k l = some v → (k, v) ∈ l := by
  intro l
  induction l with
  | nil => simp [List.lookup]
  | cons p l ih =>
    by_cases hk : k = p.1
    · cases p with
      | mk k' v' =>
        simp [List.lookup, hk] at *
        intro h
        exact Or.inl h.symm
    · have : (k == p.1) = false := by simp [hk]
      intro h
      rw [List.lookup, this] at h
      exact List.mem_cons_of_mem _ (ih h)

/-- Validation failures of nested-record field shapes carry non-empty
messages. -/
theorem coerceLeaf_msg_ne (lt : LeafType) (v : Value) (e : VError)
    (h : coerceLeaf lt v = Except.error e) : e.msg ≠ "" := by
  cases lt <;> cases v <;> simp [coerceLeaf] at h <;>
    first
      | (subst h; simp)
      | (rename_i s
         cases hp : parseIntString s <;> rw [hp] at h <;> simp at h
         subst h; simp)

/-- Errors reported for the fields of a nested record model carry non-empty
messages. -/
theorem coerceNestedFields_msg_ne :
    ∀ (fs : List (String × LeafType)) (kvs : List (String × Value)),
      ∀ e ∈ (coerceNestedFields fs kvs).1, e.msg ≠ "" := by
  intro fs
  induction fs with
  | nil => intro kvs e he; simp [coerceNestedFields] at he
  | cons p fs ih =>
    intro kvs e he
    obtain ⟨n, lt⟩ := p
    cases hl : List.lookup n kvs with
    | none =>
      simp only [coerceNestedFields, hl] at he
      rcases List.mem_cons.mp he with he | he
      · subst he; simp
      · exact ih kvs e he
    | some v =>
      cases hc : coerceLeaf lt v with
      | ok v2 =>
        simp only [coerceNestedFields, hl, hc] at he
        exact ih kvs e he
      | error e' =>
        simp only [coerceNestedFields, hl, hc] at he
        rcases List.mem_cons.mp he with he | he
        · subst he; exact coerceLeaf_msg_ne lt v e' hc
        · exact ih kvs e he

/-- Every error produced for a list field comes from the validation of one
of its elements, with the element position prepended to its location and
the type tag and message preserved. -/
theorem mem_indexedErrors {e : VError} :
    ∀ (rs : List (Except (List VError) Value)) (i : Nat),
      e ∈ indexedErrors i rs →
      ∃ es, Except.error es ∈ rs ∧ ∃ e', e' ∈ es ∧
        e.etype = e'.etype ∧ e.msg = e'.msg := by
  intro rs
  induction rs with
  | nil => intro i h; simp [indexedErrors] at h
  | cons r rs ih =>
    intro i h
    cases r with
    | ok v =>
      simp only [indexedErrors] at h
      obtain ⟨es, hes, rest⟩ := ih (i + 1) h
      exact ⟨es, List.mem_cons_of_mem _ hes, rest⟩
    | error es =>
      simp only [indexedErrors] at h
      rcases List.mem_append.mp h with hm | hm
      · obtain ⟨e', he', heq⟩ := List.mem_map.mp hm
        refine ⟨es, List.mem_cons_self _ _, e', he', ?_, ?_⟩ <;>
          simp [← heq]
      · obtain ⟨es', hes', rest⟩ := ih (i + 1) hm
        exact ⟨es', List.mem_cons_of_mem _ hes', rest⟩

/-- Packaging of the per-case facts about a single-error failure. -/
theorem singleton_error_props {es : List VError} (lit : VError) (c : Prop)
    (h : es = [lit]) (hmsg : lit.msg ≠ "") (hety : lit.etype ≠ "missing") :
    es ≠ [] ∧ ∀ e ∈ es, e.msg ≠ "" ∧ (c → e.etype ≠ "missing") := by
  subst h
  refine ⟨by simp, ?_⟩
  intro e he
  rw [List.mem_singleton] at he
  subst he
  exact ⟨hmsg, fun _ => hety⟩

/-- Soundness of field-type validation failures: the error list is
non-empty, every message is non-empty, and — when the type contains no
nested record model — no error has the `missing` type tag. -/
theorem coerceType_error_sound :
    ∀ (t : FieldType) (v : Value) (es : List VError),
      coerceType t v = Except.error es →
      es ≠ [] ∧ ∀ e ∈ es, e.msg ≠ "" ∧
        (t.noNested = true → e.etype ≠ "missing") := by
  intro t
  induction t with
  | string =>
    intro v es h
    cases v <;> simp [coerceType] at h <;>
      exact singleton_error_props _ _ h.symm (by decide) (by decide)
  | integer =>
    intro v es h
    cases v <;> simp [coerceType] at h
    case str s =>
      cases hp : parseIntString s <;> rw [hp] at h <;> simp at h
      exact singleton_error_props _ _ h.symm (by decide) (by decide)
    all_goals exact singleton_error_props _ _ h.symm (by decide) (by decide)
  | email =>
    intro v es h
    cases v <;> simp [coerceType] at h
    case str s =>
      cases he : emailValid s <;> rw [he] at h <;> simp at h
      exact singleton_error_props _ _ h.symm (by decide) (by decide)
    all_goals exact singleton_error_props _ _ h.symm (by decide) (by decide)
  | uploadDate =>
    intro v es h
    cases v <;> simp [coerceType] at h
    case str s =>
      cases hu : validated_upload_date s with
      | ok s2 => rw [hu] at h; simp at h
      | error m =>
        rw [hu] at h; simp at h
        exact singleton_error_props ⟨[], "value_error", "Value error, " ++ m⟩ _
          h.symm (append_ne_empty "Value error, " m (by decide)) (by simp)
    all_goals exact singleton_error_props _ _ h.symm (by decide) (by decide)
  | utcDatetime =>
    intro v es h
    cases v <;> simp [coerceType] at h
    case str s =>
      split at h
      · exact absurd h (by simp)
      · injection h with h
        exact singleton_error_props _ _ h.symm (by decide) (by decide)
    all_goals exact singleton_error_props _ _ h.symm (by decide) (by decide)
  | jsonObject =>
    intro v es h
    cases v <;> simp [coerceType] at h <;>
      exact singleton_error_props _ _ h.symm (by decide) (by decide)
  | strEnum lits =>
    intro v es h
    cases v <;> simp [coerceType] at h
    case str s =>
      split at h
      · exact absurd h (by simp)
      · injection h with h
        exact singleton_error_props _ _ h.symm (by decide) (by decide)
    all_goals exact singleton_error_props _ _ h.symm (by decide) (by decide)
  | optionalOf t ih =>
    intro v es h
    cases v <;> simp only [coerceType] at h
    case null => cases h
    all_goals
      obtain ⟨hne, hall⟩ := ih _ es h
      exact ⟨hne, fun e he =>
        ⟨(hall e he).1, fun hn => (hall e he).2 (by simpa [FieldType.noNested] using hn)⟩⟩
  | listOf t ih =>
    intro v es h
    cases v <;> simp [coerceType] at h
    case list vs =>
      split at h
      · exact absurd h (by simp)
      · rename_i hne
        injection h with h
        subst h
        refine ⟨by simpa [List.isEmpty_iff] using hne, ?_⟩
        intro e he
        obtain ⟨es', hes', e', he', hety, hmsg⟩ := mem_indexedErrors _ 0 he
        obtain ⟨v', hv', hcv⟩ := List.mem_map.mp hes'
        obtain ⟨-, hall⟩ := ih v' es' hcv
        refine ⟨hmsg ▸ (hall e' he').1, fun hn => ?_⟩
        rw [hety]
        exact (hall e' he').2 (by simpa [FieldType.noNested] using hn)
    all_goals exact singleton_error_props _ _ h.symm (by decide) (by decide)
  | nested fields ex =>
    intro v es h
    cases v <;> simp [coerceType] at h
    case obj kvs =>
      split at h
      · exact absurd h (by simp)
      · rename_i hne
        injection h with h
        subst h
        refine ⟨by simpa [List.isEmpty_iff] using hne, ?_⟩
        intro e he
        refine ⟨coerceNestedFields_msg_ne fields kvs e he, fun hn => ?_⟩
        simp [FieldType.noNested] at hn
    all_goals exact singleton_error_props _ _ h.symm (by decide) (by decide)

/-- The per-field pass reports no errors exactly when every declared field
is satisfied by the payload. -/
theorem processFields_errors_nil_iff :
    ∀ (fs : List FieldSpec) (P : Payload),
      (processFields fs P).1 = [] ↔ ∀ f ∈ fs, fieldOk P f = true := by
  intro fs P
  induction fs with
  | nil => simp [processFields]
  | cons f fs ih =>
    cases hl : List.lookup f.name P with
    | some v =>
      cases hc : coerceType f.ftype v with
      | ok v2 =>
        simp only [processFields, hl, hc]
        rw [List.forall_mem_cons]
        simp [fieldOk, hl, hc, ih]
      | error es =>
        have hne := (coerceType_error_sound f.ftype v es hc).1
        simp only [processFields, hl, hc]
        constructor
        · intro h
          rcases List.append_eq_nil.mp h with ⟨hmap, -⟩
          exact absurd (List.map_eq_nil_iff.mp hmap) hne
        · intro h
          have hf := h f (List.mem_cons_self f fs)
          simp [fieldOk, hl, hc] at hf
    | none =>
      cases hd : f.dflt with
      | some d =>
        simp only [processFields, hl, hd]
        rw [List.forall_mem_cons]
        simp [fieldOk, hl, hd, ih]
      | none =>
        simp only [processFields, hl, hd]
        constructor
        · intro h; simp at h
        · intro h
          have hf := h f (List.mem_cons_self f fs)
          simp [fieldOk, hl, hd] at hf

/-- Keys of a successfully populated instance all come from the declared
field names. -/
theorem processFields_inst_keys :
    ∀ (fs : List FieldSpec) (P : Payload) (k : String),
      k ∈ (processFields fs P).2.map Prod.fst → k ∈ fs.map FieldSpec.name := by
  intro fs
  induction fs with
  | nil => intro P k h; simp [processFields] at h
  | cons f fs ih =>
    intro P k h
    cases hl : List.lookup f.name P with
    | some v =>
      cases hc : coerceType f.ftype v with
      | ok v2 =>
        simp only [processFields, hl, hc, List.map_cons] at h
        rcases List.mem_cons.mp h with h | h
        · simp [h]
        · exact List.mem_cons_of_mem _ (ih P k h)
      | error es =>
        simp only [processFields, hl, hc] at h
        exact List.mem_cons_of_mem _ (ih P k h)
    | none =>
      cases hd : f.dflt with
      | some d =>
        simp only [processFields, hl, hd, List.map_cons] at h
        rcases List.mem_cons.mp h with h | h
        · simp [h]
        · exact List.mem_cons_of_mem _ (ih P k h)
      | none =>
        simp only [processFields, hl, hd] at h
        exact List.mem_cons_of_mem _ (ih P k h)

/-- Every error of the per-field pass is attributed (via the head of its
`loc`) to a declared field name, and carries a non-empty message. -/
theorem processFields_errors_sound :
    ∀ (fs : List FieldSpec) (P : Payload),
      ∀ e ∈ (processFields fs P).1,
        e.loc.headD "" ∈ fs.map FieldSpec.name ∧ e.msg ≠ "" := by
  intro fs
  induction fs with
  | nil => intro P e h; simp [processFields] at h
  | cons f fs ih =>
    intro P e h
    cases hl : List.lookup f.name P with
    | some v =>
      cases hc : coerceType f.ftype v with
      | ok v2 =>
        simp only [processFields, hl, hc] at h
        obtain ⟨hm, hmsg⟩ := ih P e h
        exact ⟨List.mem_cons_of_mem _ hm, hmsg⟩
      | error es =>
        simp only [processFields, hl, hc] at h
        rcases List.mem_append.mp h with h | h
        · obtain ⟨e', he', heq⟩ := List.mem_map.mp h
          have hmsg := ((coerceType_error_sound f.ftype v es hc).2 e' he').1
          subst heq
          exact ⟨by simp, by simpa using hmsg⟩
        · obtain ⟨hm, hmsg⟩ := ih P e h
          exact ⟨List.mem_cons_of_mem _ hm, hmsg⟩
    | none =>
      cases hd : f.dflt with
      | some d =>
        simp only [processFields, hl, hd] at h
        obtain ⟨hm, hmsg⟩ := ih P e h
        exact ⟨List.mem_cons_of_mem _ hm, hmsg⟩
      | none =>
        simp only [processFields, hl, hd] at h
        rcases List.mem_cons.mp h with h | h
        · subst h
          exact ⟨by simp, by simp⟩
        · obtain ⟨hm, hmsg⟩ := ih P e h
          exact ⟨List.mem_cons_of_mem _ hm, hmsg⟩

/-- Errors of the remaining fields stay in the error list when one more
field is processed in front of them. -/
theorem processFields_rest_subset :
    ∀ (f : FieldSpec) (fs : List FieldSpec) (P : Payload) (e : VError),
      e ∈ (processFields fs P).1 → e ∈ (processFields (f :: fs) P).1 := by
  intro f fs P e he
  cases hl : List.lookup f.name P with
  | some v =>
    cases hc : coerceType f.ftype v with
    | ok v2 => simpa [processFields, hl, hc] using he
    | error es =>
      simp only [processFields, hl, hc]
      exact List.mem_append_right _ he
  | none =>
    cases hd : f.dflt with
    | some d => simpa [processFields, hl, hd] using he
    | none =>
      simp only [processFields, hl, hd]
      exact List.mem_cons_of_mem _ he

/-- A required field absent from the payload always contributes its
`missing` error to the per-field pass. -/
theorem processFields_missing_complete :
    ∀ (fs : List FieldSpec) (P : Payload) (f : FieldSpec),
      f ∈ fs → f.dflt = none → List.lookup f.name P = none →
      (⟨[f.name], "missing", "Field required"⟩ : VError) ∈
        (processFields fs P).1 := by
  intro fs
  induction fs with
  | nil => intro P f h; simp at h
  | cons g fs ih =>
    intro P f hmem hd hl
    rcases List.mem_cons.mp hmem with heq | hmem
    · subst heq
      simp only [processFields, hl, hd]
      exact List.mem_cons_self _ _
    · exact processFields_rest_subset g fs P _ (ih P f hmem hd hl)

/-- A present field that fails coercion contributes a non-`missing` error
attributed to its name, provided its declared type has no nested record
model. -/
theorem processFields_mistyped_present :
    ∀ (fs : List FieldSpec) (P : Payload) (f : FieldSpec) (v : Value)
      (es : List VError),
      f ∈ fs → List.lookup f.name P = some v →
      coerceType f.ftype v = Except.error es → f.ftype.noNested = true →
      ∃ e ∈ (processFields fs P).1, e.loc.headD "" = f.name ∧
        e.etype ≠ "missing" ∧ e.msg ≠ "" := by
  intro fs
  induction fs with
  | nil => intro P f v es h; simp at h
  | cons g fs ih =>
    intro P f v es hmem hl hc hflat
    rcases List.mem_cons.mp hmem with heq | hmem
    · subst heq
      obtain ⟨hne, hall⟩ := coerceType_error_sound f.ftype v es hc
      obtain ⟨e0, es', rfl⟩ := List.exists_cons_of_ne_nil hne
      have h0 := hall e0 (List.mem_cons_self _ _)
      refine ⟨⟨f.name :: e0.loc, e0.etype, e0.msg⟩, ?_, by simp, h0.2 hflat, h0.1⟩
      simp only [processFields, hl, hc]
      exact List.mem_append_left _ (by simp)
    · obtain ⟨e, he, hrest⟩ := ih P f v es hmem hl hc hflat
      exact ⟨e, processFields_rest_subset g fs P e he, hrest⟩

/-- For schemas without nested record models, the `missing`-typed errors of
the per-field pass are exactly the absent required fields, in declaration
order. -/
theorem processFields_missing_flat :
    ∀ (fs : List FieldSpec) (P : Payload),
      (∀ f ∈ fs, f.ftype.noNested = true) →
      ((processFields fs P).1.filter (fun e => e.etype == "missing")).map
          (fun e => e.loc.headD "") =
        (fs.filter
            (fun f => f.dflt.isNone && (List.lookup f.name P).isNone)).map
          FieldSpec.name := by
  intro fs P
  induction fs with
  | nil => intro _; simp [processFields]
  | cons f fs ih =>
    intro hflat
    have hf := hflat f (List.mem_cons_self _ _)
    have hfs : ∀ g ∈ fs, g.ftype.noNested = true :=
      fun g hg => hflat g (List.mem_cons_of_mem _ hg)
    cases hl : List.lookup f.name P with
    | some v =>
      cases hc : coerceType f.ftype v with
      | ok v2 =>
        simp only [processFields, hl, hc]
        rw [ih hfs]
        simp [List.filter_cons, hl]
      | error es =>
        simp only [processFields, hl, hc, List.filter_append]
        have hmapnil :
            (es.map
              (fun e => (⟨f.name :: e.loc, e.etype, e.msg⟩ : VError))).filter
                (fun e => e.etype == "missing") = [] := by
          rw [List.filter_eq_nil_iff]
          intro a ha
          obtain ⟨e', he', heq⟩ := List.mem_map.mp ha
          have hnm := ((coerceType_error_sound f.ftype v es hc).2 e' he').2 hf
          subst heq
          simpa using hnm
        rw [hmapnil, List.nil_append, ih hfs]
        simp [List.filter_cons, hl]
    | none =>
      cases hd : f.dflt with
      | some d =>
        simp only [processFields, hl, hd]
        rw [ih hfs]
        simp [List.filter_cons, hd]
      | none =>
        simp only [processFields, hl, hd]
        rw [List.filter_cons]
        simp only [show ((⟨[f.name], "missing", "Field required"⟩ :
          VError).etype == "missing") = true from rfl, if_true, List.map_cons]
        rw [ih hfs]
        simp [List.filter_cons, hl, hd]

/-- Keys after a dict-style upsert: unchanged when the key exists, appended
otherwise. -/
theorem upsert_keys (k v : String) :
    ∀ (l : List (String × String)),
      (upsert k v l).map Prod.fst =
        if k ∈ l.map Prod.fst then l.map Prod.fst
        else l.map Prod.fst ++ [k] := by
  intro l
  induction l with
  | nil => simp [upsert]
  | cons p l ih =>
    obtain ⟨k', v'⟩ := p
    by_cases hk : k' = k
    · subst hk
      simp [upsert]
    · have hk' : ¬(k = k') := fun h => hk h.symm
      simp only [upsert, if_neg hk, List.map_cons, ih]
      by_cases hm : k ∈ l.map Prod.fst <;>
        simp [hm, List.mem_cons, hk']

/-- Each pair of a dict-style upsert is the new pair or came from the input
association list. -/
theorem upsert_source (k v : String) :
    ∀ (l : List (String × String)) (p : String × String),
      p ∈ upsert k v l → p = (k, v) ∨ p ∈ l := by
  intro l
  induction l with
  | nil => intro p h; simp [upsert] at h; exact Or.inl h
  | cons q l ih =>
    intro p h
    obtain ⟨k', v'⟩ := q
    by_cases hk : k' = k
    · simp only [upsert, if_pos hk] at h
      rcases List.mem_cons.mp h with h | h
      · exact Or.inl h
      · exact Or.inr (List.mem_cons_of_mem _ h)
    · simp only [upsert, if_neg hk] at h
      rcases List.mem_cons.mp h with h | h
      · exact Or.inr (by simp [h])
      · rcases ih p h with h | h
        · exact Or.inl h
        · exact Or.inr (List.mem_cons_of_mem _ h)

/-- The dict comprehension keeps its keys free of duplicates. -/
theorem foldl_upsert_keys_nodup :
    ∀ (es : List VError) (acc : List (String × String)),
      (acc.map Prod.fst).Nodup →
      ((es.foldl (fun acc e => upsert (e.loc.headD "") e.msg acc) acc).map
        Prod.fst).Nodup := by
  intro es
  induction es with
  | nil => intro acc h; simpa using h
  | cons e es ih =>
    intro acc h
    rw [List.foldl_cons]
    apply ih
    rw [upsert_keys]
    split
    · exact h
    · rename_i hnm
      simp only [List.nodup_append, h, true_and]
      refine ⟨List.nodup_singleton _, ?_⟩
      intro x hx
      simp only [List.mem_singleton]
      intro hxk
      subst hxk
      exact hnm hx

/-- Each pair of the dict comprehension comes from one of the errors: its
key is that error's first `loc` component and its value that error's
message. -/
theorem foldl_upsert_source :
    ∀ (es : List VError) (acc : List (String × String)) (p : String × String),
      p ∈ es.foldl (fun acc e => upsert (e.loc.headD "") e.msg acc) acc →
      p ∈ acc ∨ ∃ e ∈ es, p.1 = e.loc.headD "" ∧ p.2 = e.msg := by
  intro es
  induction es with
  | nil => intro acc p h; exact Or.inl (by simpa using h)
  | cons e es ih =>
    intro acc p h
    rw [List.foldl_cons] at h
    rcases ih _ p h with hacc | ⟨e', he', hp⟩
    · rcases upsert_source _ _ _ p hacc with heq | hmem
      · exact Or.inr ⟨e, List.mem_cons_self _ _, by simp [heq]⟩
      · exact Or.inl hmem
    · exact Or.inr ⟨e', List.mem_cons_of_mem _ he', hp⟩

/-- Keys never disappear as the dict comprehension progresses. -/
theorem foldl_upsert_keys_mono :
    ∀ (es : List VError) (acc : List (String × String)) (k : String),
      k ∈ acc.map Prod.fst →
      k ∈ (es.foldl (fun acc e => upsert (e.loc.headD "") e.msg acc) acc).map
        Prod.fst := by
  intro es
  induction es with
  | nil => intro acc k h; simpa using h
  | cons e es ih =>
    intro acc k h
    rw [List.foldl_cons]
    apply ih
    rw [upsert_keys]
    split
    · exact h
    · exact List.mem_append_left _ h

/-- Every error contributes its first `loc` component as a key of the dict
comprehension. -/
theorem foldl_upsert_presence :
    ∀ (es : List VError) (acc : List (String × String)) (e : VError),
      e ∈ es →
      e.loc.headD "" ∈
        (es.foldl (fun acc e => upsert (e.loc.headD "") e.msg acc) acc).map
          Prod.fst := by
  intro es
  induction es with
  | nil => intro acc e h; simp at h
  | cons e' es ih =>
    intro acc e h
    rw [List.foldl_cons]
    rcases List.mem_cons.mp h with heq | hmem
    · subst heq
      apply foldl_upsert_keys_mono
      rw [upsert_keys]
      split
      · assumption
      · exact List.mem_append_right _ (by simp)
    · exact ih _ e hmem

/-- A failing call returns exactly the exception built from the payload and
the aggregate report. -/
theorem get_validated_payload_error_eq (P : Payload) (S : Schema)
    (e : EventSchemaValidationError)
    (h : get_validated_payload P S = Except.error e) :
    (processFields S.fields P).1 ≠ [] ∧
      e = mkEventSchemaValidationError P (fullErrorInfo P S) := by
  simp only [get_validated_payload] at h
  split at h
  · exact absurd h (by simp)
  · rename_i hne
    injection h with h
    refine ⟨?_, h.symm⟩
    intro hnil
    rw [hnil] at hne
    simp at hne

/-- When the per-field pass reports errors, the call fails with the
exception built from the payload and the aggregate report. -/
theorem get_validated_payload_error_of_ne (P : Payload) (S : Schema)
    (hne : (processFields S.fields P).1 ≠ []) :
    get_validated_payload P S =
      Except.error (mkEventSchemaValidationError P (fullErrorInfo P S)) := by
  simp only [get_validated_payload]
  split
  · rename_i hemp
    exact absurd (by simpa [List.isEmpty_iff] using hemp) hne
  · rfl

/-- When the per-field pass reports no errors, the call succeeds and, for an
extra-ignoring schema, returns exactly the populated declared fields. -/
theorem get_validated_payload_ok_of_nil (P : Payload) (S : Schema)
    (hnil : (processFields S.fields P).1 = [])
    (hex : S.ex = Extra.ignore) :
    get_validated_payload P S = Except.ok (processFields S.fields P).2 := by
  simp only [get_validated_payload]
  split
  · rw [hex]
  · rename_i hemp
    rw [hnil] at hemp
    simp at hemp

/-- Claim C1, counterexample: the claim quantifies over every schema, but
`MetadataDatasetFile` is configured with `extra="allow"`, so a successful
validation keeps the undeclared key `extra_field` in the validated instance
instead of dropping it. -/
theorem claim_C1_counterexample :
    ∃ inst, get_validated_payload payloadC1 metadataDatasetFile =
        Except.ok inst ∧
      "extra_field" ∈ inst.map Prod.fst ∧
      List.lookup "extra_field" inst = some (Value.str "x") := by
  refine ⟨_, rfl, ?_, rfl⟩
  decide

/-- Claim C1 (amended): for every schema whose model configuration ignores
extras (pydantic's default) and every payload satisfying all declared
fields (required fields present and well-typed, any present optional field
well-typed) plus arbitrary extra keys, validation succeeds and the
undeclared keys are absent from the validated instance. -/
theorem claim_C1_amended (S : Schema) (P : Payload)
    (hex : S.ex = Extra.ignore)
    (hok : ∀ f ∈ S.fields, fieldOk P f = true) :
    ∃ inst, get_validated_payload P S = Except.ok inst ∧
      ∀ k ∈ P.map Prod.fst, k ∉ fieldNames S → k ∉ inst.map Prod.fst := by
  have hnil : (processFields S.fields P).1 = [] :=
    (processFields_errors_nil_iff S.fields P).mpr hok
  refine ⟨(processFields S.fields P).2,
    get_validated_payload_ok_of_nil P S hnil hex, ?_⟩
  intro k _ hknot hkin
  exact hknot (processFields_inst_keys S.fields P k hkin)

/-- Witness for the amended claim C1 at the spec's concrete scenario D:
the test schema with payload
`{"some_param": "test", "another_param": 1234, "extra_field": "x"}`. -/
theorem claim_C1_witness :
    ∃ inst, get_validated_payload
        [("some_param", Value.str "test"), ("another_param", Value.int 1234),
         ("extra_field", Value.str "x")] exampleSchema = Except.ok inst ∧
      ∀ k ∈ ([("some_param", Value.str "test"),
          ("another_param", Value.int 1234),
          ("extra_field", Value.str "x")] : Payload).map Prod.fst,
        k ∉ fieldNames exampleSchema → k ∉ inst.map Prod.fst :=
  claim_C1_amended exampleSchema
    [("some_param", Value.str "test"), ("another_param", Value.int 1234),
     ("extra_field", Value.str "x")] rfl (by decide)

/-- Claim C9: `MetadataDatasetOverview` (a registry schema configured with
`extra="allow"`) retains undeclared payload keys in the successfully
validated instance. -/
theorem claim_C9_theorem :
    ∃ S, List.lookup "metadata_dataset_overview" schema_registry = some S ∧
      ∃ inst, get_validated_payload payloadC9 S = Except.ok inst ∧
        "extra_info" ∈ inst.map Prod.fst ∧
        List.lookup "extra_info" inst = some (Value.str "x") := by
  refine ⟨metadataDatasetOverview, rfl, _, rfl, ?_, rfl⟩
  decide

/-- Claim C2, counterexample: against `MetadataDatasetOverview`, a payload
omitting the required field `accession` yields `missing_fields =
["accession", "files", "files", "files"]` — the nested `missing` errors of
the present `files` field are attributed to `files` (with repetition), so
`missing_fields` is not exactly the required field names absent from the
payload (which are just `["accession"]`). -/
theorem claim_C2_counterexample :
    ∃ e, get_validated_payload payloadC2 metadataDatasetOverview =
        Except.error e ∧
      e.error_info.missing_fields = ["accession", "files", "files", "files"] ∧
      requiredAbsent payloadC2 metadataDatasetOverview = ["accession"] ∧
      e.error_info.missing_fields ≠
        requiredAbsent payloadC2 metadataDatasetOverview ∧
      "files" ∈ e.error_info.missing_fields ∧
      (List.lookup "files" payloadC2).isSome = true := by
  refine ⟨_, rfl, rfl, rfl, by decide, by decide, rfl⟩

/-- Claim C2 (amended): for schemas none of whose fields involve a nested
record model, a payload omitting at least one required field fails
validation with `missing_fields` exactly the required field names absent
from the payload, in declaration order. -/
theorem claim_C2_amended (S : Schema) (P : Payload)
    (hflat : ∀ f ∈ S.fields, f.ftype.noNested = true)
    (f0 : FieldSpec) (hf0 : f0 ∈ S.fields) (hd0 : f0.dflt = none)
    (hl0 : List.lookup f0.name P = none) :
    ∃ e, get_validated_payload P S = Except.error e ∧
      e.error_info.missing_fields = requiredAbsent P S := by
  have hmem := processFields_missing_complete S.fields P f0 hf0 hd0 hl0
  have hne : (processFields S.fields P).1 ≠ [] := by
    intro h
    rw [h] at hmem
    simp at hmem
  refine ⟨_, get_validated_payload_error_of_ne P S hne, ?_⟩
  exact processFields_missing_flat S.fields P hflat

/-- Witness for the amended claim C2: the test schema with a payload
omitting the required `another_param`. -/
theorem claim_C2_witness :
    ∃ e, get_validated_payload [("some_param", Value.str "test")]
        exampleSchema = Except.error e ∧
      e.error_info.missing_fields =
        requiredAbsent [("some_param", Value.str "test")] exampleSchema :=
  claim_C2_amended exampleSchema [("some_param", Value.str "test")]
    (by decide) ⟨"another_param", FieldType.integer, none⟩
    (by simp [exampleSchema]) rfl rfl

/-- Claim C3, counterexample: against `MetadataDatasetOverview`, the present
field `files` has a value that cannot be coerced to its declared type, yet
`files` does not appear in `mistyped_fields` — its errors have the
`missing` type tag and land in `missing_fields` instead. -/
theorem claim_C3_counterexample :
    ∃ e, get_validated_payload payloadC3 metadataDatasetOverview =
        Except.error e ∧
      List.lookup "files" payloadC3 = some (Value.list [Value.obj []]) ∧
      (∃ es, coerceType
          (FieldType.listOf
            (FieldType.nested metadataDatasetFileFields Extra.allow))
          (Value.list [Value.obj []]) = Except.error es) ∧
      List.lookup "files" e.error_info.mistyped_fields = none ∧
      e.error_info.mistyped_fields = [] := by
  refine ⟨_, rfl, rfl, ⟨_, rfl⟩, rfl, rfl⟩

/-- Claim C3 (amended): for schemas none of whose fields involve a nested
record model, a present declared field whose value fails coercion or its
custom constraint makes validation fail with that field's name mapped, in
`mistyped_fields`, to a non-empty reason string. -/
theorem claim_C3_amended (S : Schema) (P : Payload) (f : FieldSpec)
    (v : Value) (es : List VError)
    (hflat : ∀ g ∈ S.fields, g.ftype.noNested = true)
    (hf : f ∈ S.fields) (hv : List.lookup f.name P = some v)
    (he : coerceType f.ftype v = Except.error es) :
    ∃ err, get_validated_payload P S = Except.error err ∧
      ∃ m, List.lookup f.name err.error_info.mistyped_fields = some m ∧
        m ≠ "" := by
  obtain ⟨e0, hmem0, hhead0, hety0, hmsg0⟩ :=
    processFields_mistyped_present S.fields P f v es hf hv he (hflat f hf)
  have hne : (processFields S.fields P).1 ≠ [] := by
    intro h
    rw [h] at hmem0
    simp at hmem0
  refine ⟨_, get_validated_payload_error_of_ne P S hne, ?_⟩
  have hfilter : e0 ∈ (processFields S.fields P).1.filter
      (fun e => e.etype != "missing") := by
    refine List.mem_filter.mpr ⟨hmem0, ?_⟩
    simpa using hety0
  have hkey : f.name ∈ (buildMistyped ((processFields S.fields P).1.filter
      (fun e => e.etype != "missing"))).map Prod.fst := by
    have := foldl_upsert_presence _ [] e0 hfilter
    rwa [hhead0] at this
  rw [← lookup_isSome_iff] at hkey
  obtain ⟨m, hm⟩ := Option.isSome_iff_exists.mp hkey
  refine ⟨m, hm, ?_⟩
  have hpair := lookup_mem _ hm
  rcases foldl_upsert_source _ [] (f.name, m) hpair with h0 | ⟨e', he', -, hm2⟩
  · simp at h0
  · have hmsg := (processFields_errors_sound S.fields P e'
      (List.mem_of_mem_filter he')).2
    have hm3 : m = e'.msg := hm2
    rw [hm3]
    exact hmsg

/-- Witness for the amended claim C3 at the spec's concrete scenario B:
`another_param` present with the non-integer string value `"test"`. -/
theorem claim_C3_witness :
    ∃ err, get_validated_payload
        [("some_param", Value.str "test"), ("another_param", Value.str "test")]
        exampleSchema = Except.error err ∧
      ∃ m, List.lookup "another_param" err.error_info.mistyped_fields =
          some m ∧ m ≠ "" :=
  claim_C3_amended exampleSchema
    [("some_param", Value.str "test"), ("another_param", Value.str "test")]
    ⟨"another_param", FieldType.integer, none⟩ (Value.str "test")
    [⟨[], "int_parsing",
      "Input should be a valid integer, unable to parse string as an integer"⟩]
    (by decide) (by simp [exampleSchema]) rfl rfl

/-- Claim C4: on every failure, `unexpected_fields` contains exactly the
payload keys that are not declared field names of the schema — the simple
set-difference of validation.py line 65, independent of the
missing/mistyped checks. -/
theorem claim_C4_theorem (P : Payload) (S : Schema)
    (e : EventSchemaValidationError)
    (h : get_validated_payload P S = Except.error e) (k : String) :
    k ∈ e.error_info.unexpected_fields ↔
      (k ∈ P.map Prod.fst ∧ k ∉ fieldNames S) := by
  obtain ⟨-, he⟩ := get_validated_payload_error_eq P S e h
  subst he
  show k ∈ (P.map Prod.fst).filter (fun k => !(fieldNames S).contains k) ↔ _
  rw [List.mem_filter]
  simp

/-- Witness for claim C4: the test schema failing on a payload with a
mistyped declared field and the undeclared key `bogus`. -/
theorem claim_C4_witness :
    "bogus" ∈ (mkEventSchemaValidationError
        [("some_param", Value.int 5), ("bogus", Value.null)]
        ⟨["another_param"],
         [("some_param", "Input should be a valid string")],
         ["bogus"]⟩).error_info.unexpected_fields ↔
      ("bogus" ∈ ([("some_param", Value.int 5), ("bogus", Value.null)] :
          Payload).map Prod.fst ∧
        "bogus" ∉ fieldNames exampleSchema) :=
  claim_C4_theorem [("some_param", Value.int 5), ("bogus", Value.null)]
    exampleSchema _ rfl "bogus"

/-- Claim C5: a failing call raises one exception that carries the complete
offending payload and the aggregate three-category report — simultaneously
complete for absent required fields and for undeclared keys — and whose
message embeds the error info and the payload, each serialized as JSON
text; apart from this single exception no (partial) instance is returned. -/
theorem claim_C5_theorem (P : Payload) (S : Schema)
    (e : EventSchemaValidationError)
    (h : get_validated_payload P S = Except.error e) :
    e.payload = P ∧
    e.error_info = fullErrorInfo P S ∧
    (∀ f ∈ S.fields, f.dflt = none → List.lookup f.name P = none →
      f.name ∈ e.error_info.missing_fields) ∧
    (∀ k ∈ P.map Prod.fst, k ∉ fieldNames S →
      k ∈ e.error_info.unexpected_fields) ∧
    e.message =
      "The event payload failed validation against the corresponding" ++
        " event schema: " ++ dumpsErrorInfo e.error_info ++ "." ++
        " The complete payload is: " ++ dumpsPayload P := by
  obtain ⟨-, he⟩ := get_validated_payload_error_eq P S e h
  subst he
  refine ⟨rfl, rfl, ?_, ?_, rfl⟩
  · intro f hf hd hl
    have hmem := processFields_missing_complete S.fields P f hf hd hl
    show f.name ∈ ((processFields S.fields P).1.filter
        (fun e => e.etype == "missing")).map (fun e => e.loc.headD "")
    refine List.mem_map.mpr
      ⟨⟨[f.name], "missing", "Field required"⟩, ?_, by simp⟩
    exact List.mem_filter.mpr ⟨hmem, by simp⟩
  · intro k hk hnot
    show k ∈ (P.map Prod.fst).filter (fun k => !(fieldNames S).contains k)
    refine List.mem_filter.mpr ⟨hk, by simpa using hnot⟩

/-- Witness for claim C5: the aggregate report and message format at a
concrete failing input. -/
theorem claim_C5_witness :
    (mkEventSchemaValidationError payloadC5 infoC5).payload = payloadC5 ∧
    (mkEventSchemaValidationError payloadC5 infoC5).error_info =
      fullErrorInfo payloadC5 exampleSchema ∧
    (∀ f ∈ exampleSchema.fields, f.dflt = none →
      List.lookup f.name payloadC5 = none →
      f.name ∈ (mkEventSchemaValidationError payloadC5 infoC5).error_info.missing_fields) ∧
    (∀ k ∈ payloadC5.map Prod.fst, k ∉ fieldNames exampleSchema →
      k ∈ (mkEventSchemaValidationError payloadC5 infoC5).error_info.unexpected_fields) ∧
    (mkEventSchemaValidationError payloadC5 infoC5).message =
      "The event payload failed validation against the corresponding" ++
        " event schema: " ++
        dumpsErrorInfo (mkEventSchemaValidationError payloadC5 infoC5).error_info ++
        "." ++ " The complete payload is: " ++ dumpsPayload payloadC5 :=
  claim_C5_theorem payloadC5 exampleSchema
    (mkEventSchemaValidationError payloadC5 infoC5) rfl

/-- Claim C6: `validated_upload_date` returns its input unchanged when it
parses as an ISO-8601 date-time and otherwise raises `ValueError` with a
message naming the unparseable string; consequently an upload-date schema
(`FileUploadReceived` from the registry) maps the field to that message in
`mistyped_fields` (with pydantic's `Value error, ` wrapping). -/
theorem claim_C6_theorem :
    (∀ s, (isoParse s).isSome = true →
      validated_upload_date s = Except.ok s) ∧
    (∀ s, isoParse s = none →
      validated_upload_date s =
        Except.error ("Could not convert upload date to datetime: " ++ s)) ∧
    (∃ S, List.lookup "file_upload_received" schema_registry = some S ∧
      ∃ e, get_validated_payload payloadC6 S = Except.error e ∧
        List.lookup "upload_date" e.error_info.mistyped_fields =
          some ("Value error, Could not convert upload date to datetime: " ++
            "not-a-date")) := by
  refine ⟨?_, ?_, fileUploadReceived, rfl, _, rfl, rfl⟩
  · intro s hs
    cases h : isoParse s with
    | some b => simp [validated_upload_date, h]
    | none => rw [h] at hs; simp at hs
  · intro s hs
    simp [validated_upload_date, hs]

/-- Witness for claim C6: a parseable and an unparseable upload date. -/
theorem claim_C6_witness :
    validated_upload_date "2024-07-01T10:00:00" =
      Except.ok "2024-07-01T10:00:00" ∧
    validated_upload_date "not-a-date" =
      Except.error
        ("Could not convert upload date to datetime: " ++ "not-a-date") :=
  ⟨claim_C6_theorem.1 "2024-07-01T10:00:00" rfl,
   claim_C6_theorem.2.1 "not-a-date" rfl⟩

/-- Claim C7: validation is a deterministic, stateless function of the
payload and the schema — equal inputs give equal results. -/
theorem claim_C7_theorem (P₁ P₂ : Payload) (S₁ S₂ : Schema)
    (hP : P₁ = P₂) (hS : S₁ = S₂) :
    get_validated_payload P₁ S₁ = get_validated_payload P₂ S₂ := by
  rw [hP, hS]

/-- Witness for claim C7 at a concrete payload and registry schema. -/
theorem claim_C7_witness :
    get_validated_payload [("user_id", Value.str "u1")] userID =
      get_validated_payload [("user_id", Value.str "u1")] userID :=
  claim_C7_theorem [("user_id", Value.str "u1")]
    [("user_id", Value.str "u1")] userID userID rfl rfl

/-- Claim C8: the schema registry has pairwise-distinct event-type keys;
looking up a registered name deterministically returns its one schema
(`file_upload_received` maps to `FileUploadReceived`); lookup succeeds
exactly for registered names, so an unregistered name gives `none` (and
never some partial or default schema). -/
theorem claim_C8_theorem :
    (schema_registry.map Prod.fst).Nodup ∧
    List.lookup "file_upload_received" schema_registry =
      some fileUploadReceived ∧
    (∀ n, (List.lookup n schema_registry).isSome = true ↔
      n ∈ schema_registry.map Prod.fst) ∧
    List.lookup "unregistered_event_type" schema_registry = none := by
  refine ⟨by decide, rfl, ?_, rfl⟩
  intro n
  exact lookup_isSome_iff n schema_registry

/-- Claim C10: the error report always records only the first component of
each pydantic error location, so every report entry is attributed to a
declared top-level field name, `mistyped_fields` keeps at most one reason
per field, and concretely two distinct nested-element errors of
`MetadataSubmissionUpserted.associated_files` collapse to one reason (the
last one). -/
theorem claim_C10_theorem (P : Payload) (S : Schema)
    (e : EventSchemaValidationError)
    (h : get_validated_payload P S = Except.error e) :
    (∀ n ∈ e.error_info.missing_fields, n ∈ fieldNames S) ∧
    (∀ p ∈ e.error_info.mistyped_fields, p.1 ∈ fieldNames S) ∧
    (e.error_info.mistyped_fields.map Prod.fst).Nodup ∧
    (∃ e10, get_validated_payload payloadC10 metadataSubmissionUpserted =
        Except.error e10 ∧
      ((processFields metadataSubmissionUpserted.fields payloadC10).1.filter
        (fun er => er.etype != "missing")).length = 2 ∧
      e10.error_info.mistyped_fields = infoC10.mistyped_fields) := by
  obtain ⟨-, he⟩ := get_validated_payload_error_eq P S e h
  subst he
  refine ⟨?_, ?_, ?_, _, rfl, rfl, rfl⟩
  · intro n hn
    obtain ⟨e', he', heq⟩ := List.mem_map.mp hn
    have hsrc := (processFields_errors_sound S.fields P e'
      (List.mem_of_mem_filter he')).1
    rw [← heq]
    exact hsrc
  · intro p hp
    rcases foldl_upsert_source _ [] p hp with h0 | ⟨e', he', hp1, -⟩
    · simp at h0
    · have hsrc := (processFields_errors_sound S.fields P e'
        (List.mem_of_mem_filter he')).1
      rw [hp1]
      exact hsrc
  · exact foldl_upsert_keys_nodup _ [] (by simp)

/-- Witness for claim C10 at the concrete C10 payload and schema. -/
theorem claim_C10_witness :
    (∀ n ∈ (mkEventSchemaValidationError payloadC10
        infoC10).error_info.missing_fields,
      n ∈ fieldNames metadataSubmissionUpserted) ∧
    (∀ p ∈ (mkEventSchemaValidationError payloadC10
        infoC10).error_info.mistyped_fields,
      p.1 ∈ fieldNames metadataSubmissionUpserted) ∧
    ((mkEventSchemaValidationError payloadC10
        infoC10).error_info.mistyped_fields.map Prod.fst).Nodup ∧
    (∃ e10, get_validated_payload payloadC10 metadataSubmissionUpserted =
        Except.error e10 ∧
      ((processFields metadataSubmissionUpserted.fields payloadC10).1.filter
        (fun er => er.etype != "missing")).length = 2 ∧
      e10.error_info.mistyped_fields = infoC10.mistyped_fields) :=
  claim_C10_theorem payloadC10 metadataSubmissionUpserted
    (mkEventSchemaValidationError payloadC10 infoC10) rfl
